import Mathlib

/-!
# Verification of the `hhts_cli` driver (`src/hhts_cli/main.cpp`)

This file gives a shallow embedding of the command-line driver in
`src/hhts_cli/main.cpp` and proves properties of its observable behaviour.

The driver parses options, creates output directories, iterates over the
image files of an input directory, calls the core engine `HHTS::hhts` on
each decoded image, relabels each returned label map with
`SuperpixelTools::relabelConnectedSuperpixels`, writes one CSV grid and
optionally one contour image per label map, and finally appends one line
of average timings to a runtime log.

The core engine (`hhts.h`), `SuperpixelTools` and `Visualization` are not
part of the repository sources; the driver is modelled as parameterised
over them (structure `Engine`), and a concrete engine modelled from the
spec (`hhtsSpec`) is used where a claim depends on the engine's contract.

Machine doubles are modelled as rationals (`ℚ`); note that division by
zero yields `0` in `ℚ` whereas IEEE arithmetic yields NaN — no theorem
below depends on the value of such a quotient, only on the fact that the
division is performed and its operands.
-/

namespace HHTSCli

/-- A pixel of a decoded 8-bit BGR image (`cv::Mat` entry). -/
abbrev Pixel := Nat × Nat × Nat

/-- A decoded image. `cv::imread` returns an *empty* matrix when the file
cannot be decoded; the empty list plays that role here. -/
abbrev Image := List (List Pixel)

/-- A label map: an integer grid of region ids (`cv::Mat` of `int`). -/
abbrev LabelMap := List (List Int)

/-- The per-run settings of the driver after option parsing
(`main.cpp` lines 78–156).  Field names follow the local variables of
`main`; `pfx` stands for the `prefix` option's value. -/
structure Config where
  outputDir : String
  visDir : String
  pfx : String
  wordy : Bool
  superpixels : List Int
  splitThreshold : ℚ
  rgb : Bool
  hsv : Bool
  lab : Bool
  applyBlur : Bool
  bins : Int
  minSize : Int
  deriving DecidableEq

/-- The option table registered with `boost::program_options`
(`main.cpp` lines 49–63), one string per `add_options()` entry, exactly
as written in the source ("long,short" or just "long"). -/
def cliOptionSpecs : List String :=
  ["help,h", "input,i", "superpixels,s", "splitThreshold,t",
   "nrgb", "nhsv", "nlab", "blur",
   "bins,b", "minSize,m", "csv,o", "vis,v", "prefix,x", "wordy,w"]

/-- The characters of `l` before the first occurrence of `c`. -/
def takeUntil (c : Char) : List Char → List Char
  | [] => []
  | x :: xs => if x = c then [] else x :: takeUntil c xs

/-- The characters of `l` after the first occurrence of `c`, when any. -/
def afterFirst (c : Char) : List Char → Option (List Char)
  | [] => none
  | x :: xs => if x = c then some xs else afterFirst c xs

/-- The long name of a `boost::program_options` option spec: the part
before the comma. -/
def longName (s : String) : String := String.mk (takeUntil ',' s.data)

/-- The long option names accepted by the driver. -/
def cliOptionLongNames : List String := cliOptionSpecs.map longName

/-- Bit for the RGB channel family of `HHTS::ColorChannel`.  The header
`hhts.h` is not in the sources; modelled from the spec: independent
channel toggles map to a small bitmask, one distinct bit per family. -/
def rgbBit : Nat := 1

/-- Bit for the HSV channel family of `HHTS::ColorChannel`. -/
def hsvBit : Nat := 2

/-- Bit for the Lab channel family of `HHTS::ColorChannel`. -/
def labBit : Nat := 4

/-- The `colorChannels` bitmask computed in the image loop
(`main.cpp` lines 175–187). -/
def colorChannels (cfg : Config) : Nat :=
  (if cfg.rgb then rgbBit else 0) |||
  (if cfg.hsv then hsvBit else 0) |||
  (if cfg.lab then labBit else 0)

/-- The argument tuple the driver passes to `HHTS::hhts`
(`main.cpp` line 190): image, target superpixel counts, split threshold,
bin count, minimum segment size, channel bitmask, blur flag.  (The final
`noArray()` argument, an always-absent optional output, is omitted.) -/
structure HHTSArgs where
  image : Image
  superpixels : List Int
  splitThreshold : ℚ
  bins : Int
  minSize : Int
  colorChannels : Nat
  applyBlur : Bool
  deriving DecidableEq

/-- Builds the engine-call arguments from the parsed configuration and the
decoded image, exactly as at `main.cpp` line 190. -/
def hhtsArgs (cfg : Config) (img : Image) : HHTSArgs :=
  ⟨img, cfg.superpixels, cfg.splitThreshold, cfg.bins, cfg.minSize,
   colorChannels cfg, cfg.applyBlur⟩

/-- The configuration errors of the spec's error taxonomy. -/
inductive ConfigError where
  | noChannelSelected
  | nonpositiveBins
  | emptyTargetList
  deriving DecidableEq

/-- The external functions the driver calls per image: the core engine,
the connectivity relabeler (which returns the repaired map together with
the count of labels that needed repair), and the contour renderer. -/
structure Engine where
  hhts : HHTSArgs → Except ConfigError (List LabelMap × List Int)
  relabel : LabelMap → LabelMap × Nat
  contours : Image → LabelMap → Image

/-- Modelled from the spec: the core engine `HHTS::hhts` (its source
`hhts.h` is not in the repository).  Per the spec's error taxonomy it
rejects a configuration with no channel selected, a non-positive bin
count, or an empty target list; an unreadable (empty) image is reported
to the caller by returning no label maps; otherwise it returns exactly
one label map per requested target count, in the order requested,
together with the achieved region counts.  The actual segmentation of a
non-empty image is abstracted as the parameter `seg`. -/
def hhtsSpec (seg : HHTSArgs → Int → LabelMap) (a : HHTSArgs) :
    Except ConfigError (List LabelMap × List Int) :=
  if a.colorChannels = 0 then .error .noChannelSelected
  else if a.bins ≤ 0 then .error .nonpositiveBins
  else if a.superpixels = [] then .error .emptyTargetList
  else if a.image = [] then .ok ([], [])
  else .ok (a.superpixels.map (seg a), a.superpixels)

/-- An engine whose core is the spec-modelled `hhtsSpec`. -/
def engOf (seg : HHTSArgs → Int → LabelMap) (rel : LabelMap → LabelMap × Nat)
    (con : Image → LabelMap → Image) : Engine :=
  ⟨hhtsSpec seg, rel, con⟩

/-- Whether the dynamic checks of `hhtsSpec` accept the configuration:
some channel selected, positive bin count, non-empty target list.
The driver itself never evaluates this — see claim C2. -/
def configValid (cfg : Config) : Bool :=
  decide (colorChannels cfg ≠ 0) && decide (0 < cfg.bins) &&
  decide (cfg.superpixels ≠ [])

/-- The environment of one run: the image files found by
`IOUtil::readDirectory` (in iteration order of the sorted multimap), the
decoder (`cv::imread`; an empty image models a decode failure), the
per-iteration CPU and wall timings observed by the `boost` timer, and
the directories that already exist before the run. -/
structure Env where
  files : List String
  decode : String → Image
  cpuTime : Nat → ℚ
  wallTime : Nat → ℚ
  existingDirs : List String

/-- The observable events of a run, in program order. -/
inductive Event where
  | dirCreated (path : String)
  | imageRead (path : String)
  | engineError (e : ConfigError)
  | csvWritten (path : String) (grid : LabelMap)
  | visWritten (path : String) (img : Image)
  | runtimeAppended (avgCpu avgWall : ℚ)
  deriving DecidableEq

/-- `boost::filesystem` path concatenation with `/`; appending to the
empty path yields a relative path. -/
def joinPath (d s : String) : String := if d = "" then s else d ++ "/" ++ s

/-- `boost::filesystem::path::stem`: the file name (the part after the
last `/`) without its last extension (the part from the last `.` on).
Computed on the reversed character list: the reversed file name is what
precedes the first `/`, and dropping the extension removes everything up
to and including the first `.` of that reversed name, when one exists. -/
def stem (s : String) : String :=
  let rev := s.data.reverse
  let base := takeUntil '/' rev
  match afterFirst '.' base with
  | some rest => String.mk rest.reverse
  | none => String.mk base.reverse

/-- `if (!is_directory(p)) create_directories(p);` threaded over the set
of existing directories, recording a creation event when the directory
was absent. -/
def ensureDir (st : List String × List Event) (p : String) :
    List String × List Event :=
  if p ∈ st.1 then st else (p :: st.1, st.2 ++ [.dirCreated p])

/-- Everything the driver does before the image loop (`main.cpp` lines
78–123): ensure the CSV output directory (when non-empty), ensure the
contour directory (when non-empty), then ensure one subdirectory named
after each requested superpixel count under the CSV output directory —
the last loop is *not* guarded by the output directory being non-empty. -/
def preloopInit (env : Env) (cfg : Config) : List String × List Event :=
  let st0 := (env.existingDirs, ([] : List Event))
  let st1 := if cfg.outputDir = "" then st0 else ensureDir st0 cfg.outputDir
  if cfg.visDir = "" then st1 else ensureDir st1 cfg.visDir

/-- See `preloopInit`; the subdirectory loop of `main.cpp` lines 111–123
runs after the two directory options have been handled. -/
def preloop (env : Env) (cfg : Config) : List String × List Event :=
  cfg.superpixels.foldl
    (fun st sp => ensureDir st (joinPath cfg.outputDir (toString sp)))
    (preloopInit env cfg)

/-- The CSV / contour events written for the label map at position `i` of
the result vector (`main.cpp` lines 215–229): the CSV grid goes under
`output_dir / superpixels[i]`, the contour image under
`vis_dir / superpixels[i]`, each skipped when the respective directory
option is empty.  `superpixels[i]` is the unchecked `vector::operator[]`;
it is modelled with default `0`, and under the engine contract the label
vector never outruns the request list. -/
def outputEventsOne (cfg : Config) (f : String) (img : Image) (eng : Engine)
    (i : Nat) (m : LabelMap) : List Event :=
  (if cfg.outputDir = "" then [] else
    [.csvWritten
      (joinPath (joinPath cfg.outputDir (toString (cfg.superpixels.getD i 0)))
        (cfg.pfx ++ stem f ++ ".csv")) m]) ++
  (if cfg.visDir = "" then [] else
    [.visWritten
      (joinPath (joinPath cfg.visDir (toString (cfg.superpixels.getD i 0)))
        (cfg.pfx ++ stem f ++ ".png")) (eng.contours img m)])

/-- The output events for the whole (relabeled) result vector, from
position `i` on. -/
def outputEvents (cfg : Config) (f : String) (img : Image) (eng : Engine) :
    Nat → List LabelMap → List Event
  | _, [] => []
  | i, m :: rest =>
      outputEventsOne cfg f img eng i m ++
      outputEvents cfg f img eng (i + 1) rest

/-- The result of one iteration of the image loop. -/
structure StepOut where
  events : List Event
  cpu : ℚ
  wall : ℚ
  aborted : Bool

/-- One iteration of the image loop (`main.cpp` lines 166–230): read the
image, call the engine; on an engine error the exception escapes `main`
and the run aborts; otherwise record the timings, relabel every returned
label map in place (`relabelConnectedSuperpixels`, its returned repair
count discarded), then write the outputs from the relabeled maps. -/
def processOne (eng : Engine) (env : Env) (cfg : Config) (idx : Nat)
    (f : String) : StepOut :=
  let img := env.decode f
  match eng.hhts (hhtsArgs cfg img) with
  | .error e => ⟨[.imageRead f, .engineError e], 0, 0, true⟩
  | .ok (labels, _counts) =>
      let relabeled := labels.map (fun m => (eng.relabel m).1)
      ⟨.imageRead f :: outputEvents cfg f img eng 0 relabeled,
       env.cpuTime idx, env.wallTime idx, false⟩

/-- The accumulated result of the image loop: the events in order, the
running totals `total` (CPU) and `totalWall`, the image counter `count`,
and whether the run aborted. -/
structure LoopOut where
  events : List Event
  cpu : ℚ
  wall : ℚ
  count : Nat
  aborted : Bool

/-- The image loop over the remaining files, `idx` being the position of
the first of them in the batch. -/
def runLoop (eng : Engine) (env : Env) (cfg : Config) :
    List String → Nat → LoopOut
  | [], _ => ⟨[], 0, 0, 0, false⟩
  | f :: rest, idx =>
      let s := processOne eng env cfg idx f
      if s.aborted then ⟨s.events, s.cpu, s.wall, 0, true⟩
      else
        let r := runLoop eng env cfg rest (idx + 1)
        ⟨s.events ++ r.events, s.cpu + r.cpu, s.wall + r.wall,
         1 + r.count, r.aborted⟩

/-- The observable result of a whole run of the driver. -/
structure RunResult where
  trace : List Event
  totalCpu : ℚ
  totalWall : ℚ
  countOut : Nat
  aborted : Bool

/-- The driver after option parsing (`main.cpp` lines 78–247): the
pre-loop directory creation, the image loop, and — when the run did not
abort and the output directory is non-empty — the append of one line
`total/count totalWall/count` to the runtime log. -/
def runMain (eng : Engine) (env : Env) (cfg : Config) : RunResult :=
  let pre := preloop env cfg
  let lo := runLoop eng env cfg env.files 0
  if lo.aborted then ⟨pre.2 ++ lo.events, lo.cpu, lo.wall, lo.count, true⟩
  else
    ⟨pre.2 ++ lo.events ++
      (if cfg.outputDir = "" then [] else
        [.runtimeAppended (lo.cpu / (lo.count : ℚ)) (lo.wall / (lo.count : ℚ))]),
     lo.cpu, lo.wall, lo.count, false⟩

/-- The lines appended to the runtime log during a run, as (CPU, wall)
pairs. -/
def runtimeLines (tr : List Event) : List (ℚ × ℚ) :=
  tr.filterMap fun e =>
    match e with
    | .runtimeAppended a b => some (a, b)
    | _ => none

/-- The runtime log after a run, given its prior contents: the file is
opened with `ofstream::app` (`main.cpp` line 241), so the run's lines are
appended after the prior ones. -/
def runtimeLogAfter (prior : List (ℚ × ℚ)) (res : RunResult) : List (ℚ × ℚ) :=
  prior ++ runtimeLines res.trace

/-- The CSV files written during a run, as (path, grid) pairs in order. -/
def csvOf (tr : List Event) : List (String × LabelMap) :=
  tr.filterMap fun e =>
    match e with
    | .csvWritten p g => some (p, g)
    | _ => none

/-- The contour images written during a run, as (path, image) pairs. -/
def visOf (tr : List Event) : List (String × Image) :=
  tr.filterMap fun e =>
    match e with
    | .visWritten p i => some (p, i)
    | _ => none

/-- The CPU seconds the timer reports for `n` consecutive iterations
starting at batch position `idx`. -/
def cpuSum (env : Env) : Nat → Nat → ℚ
  | _, 0 => 0
  | idx, n + 1 => env.cpuTime idx + cpuSum env (idx + 1) n

/-- The wall seconds for `n` consecutive iterations starting at `idx`. -/
def wallSum (env : Env) : Nat → Nat → ℚ
  | _, 0 => 0
  | idx, n + 1 => env.wallTime idx + wallSum env (idx + 1) n

/-! ## Concrete test fixtures

Small concrete instantiations of the engine parameters and of the
environment, used to evaluate the theorems below at explicit inputs. -/

/-- A concrete segmentation: one 1×1 grid holding the target count. -/
def seg0 : HHTSArgs → Int → LabelMap := fun _ t => [[t]]

/-- A concrete relabeler that repairs nothing and reports 0 repairs. -/
def rel0 : LabelMap → LabelMap × Nat := fun m => (m, 0)

/-- A relabeler identical to `rel0` on maps but reporting 1 repair. -/
def rel1 : LabelMap → LabelMap × Nat := fun m => (m, 1)

/-- A concrete contour renderer returning the input image unchanged. -/
def con0 : Image → LabelMap → Image := fun img _ => img

/-- The concrete engine built from the fixtures. -/
def eng0 : Engine := engOf seg0 rel0 con0

/-- A one-file environment whose image decodes successfully. -/
def env0 : Env :=
  ⟨["imgs/a.png"], fun _ => [[(1, 2, 3)]], fun _ => 1, fun _ => 2, []⟩

/-- A two-file environment: the first image decodes, the second does not. -/
def envGood : Env :=
  ⟨["d/a.png", "d/bad.png"],
   fun f => if f = "d/a.png" then [[(1, 2, 3)]] else [],
   fun i => (i : ℚ) + 1, fun i => 2 * (i : ℚ) + 2, []⟩

/-- `envGood` with different timings (same files, same decoder). -/
def envGood2 : Env :=
  ⟨["d/a.png", "d/bad.png"],
   fun f => if f = "d/a.png" then [[(1, 2, 3)]] else [],
   fun _ => 7, fun _ => 9, []⟩

/-- An environment whose input directory yields no images. -/
def envEmpty : Env := ⟨[], fun _ => [], fun _ => 0, fun _ => 0, []⟩

/-- A valid configuration: CSV output to `out`, targets 2 and 5. -/
def cfg0 : Config :=
  ⟨"out", "", "", false, [2, 5], 0, true, true, true, false, 32, 64⟩

/-- A configuration with an empty target-count list (invalid per the
spec's error taxonomy), CSV output to `out`. -/
def cfgBad : Config :=
  ⟨"out", "", "", false, [], 0, true, true, true, false, 32, 64⟩

/-- A configuration with an empty CSV output directory but a requested
target count of 3. -/
def cfgNoOut : Config :=
  ⟨"", "", "", false, [3], 0, true, true, true, false, 32, 64⟩

/-! ## Rewriting equations for the loop body -/

lemma processOne_eq_error {eng : Engine} {env : Env} {cfg : Config} {idx : Nat}
    {f : String} {ec : ConfigError}
    (hc : eng.hhts (hhtsArgs cfg (env.decode f)) = .error ec) :
    processOne eng env cfg idx f =
      ⟨[.imageRead f, .engineError ec], 0, 0, true⟩ := by
  simp [processOne, hc]

lemma processOne_eq_ok {eng : Engine} {env : Env} {cfg : Config} {idx : Nat}
    {f : String} {labels : List LabelMap} {counts : List Int}
    (hc : eng.hhts (hhtsArgs cfg (env.decode f)) = .ok (labels, counts)) :
    processOne eng env cfg idx f =
      ⟨.imageRead f ::
         outputEvents cfg f (env.decode f) eng 0
           (labels.map (fun m => (eng.relabel m).1)),
       env.cpuTime idx, env.wallTime idx, false⟩ := by
  simp [processOne, hc]

lemma processOne_events_head {eng : Engine} {env : Env} {cfg : Config}
    {idx : Nat} {f : String} :
    ∃ tl, (processOne eng env cfg idx f).events = .imageRead f :: tl := by
  rcases hc : eng.hhts (hhtsArgs cfg (env.decode f)) with ec | r
  · rw [processOne_eq_error hc]; exact ⟨_, rfl⟩
  · obtain ⟨labels, counts⟩ := r
    rw [processOne_eq_ok hc]; exact ⟨_, rfl⟩

/-! ## Shapes of emitted events -/

lemma mem_outputEvents {cfg : Config} {f : String} {img : Image} {eng : Engine} :
    ∀ {i : Nat} {ms : List LabelMap} {e : Event},
      e ∈ outputEvents cfg f img eng i ms →
      (∃ p m, m ∈ ms ∧ e = .csvWritten p m) ∨
      (∃ p m, m ∈ ms ∧ e = .visWritten p (eng.contours img m)) := by
  intro i ms
  induction ms generalizing i with
  | nil => intro e h; simp [outputEvents] at h
  | cons m rest ih =>
      intro e h
      simp only [outputEvents] at h
      rcases List.mem_append.1 h with h1 | h2
      · unfold outputEventsOne at h1
        rcases List.mem_append.1 h1 with ha | hb
        · left
          split at ha
          · simp at ha
          · simp at ha
            exact ⟨_, m, List.mem_cons_self _ _, ha⟩
        · right
          split at hb
          · simp at hb
          · simp at hb
            exact ⟨_, m, List.mem_cons_self _ _, hb⟩
      · rcases ih h2 with ⟨p, m2, hm, he⟩ | ⟨p, m2, hm, he⟩
        · exact Or.inl ⟨p, m2, List.mem_cons_of_mem _ hm, he⟩
        · exact Or.inr ⟨p, m2, List.mem_cons_of_mem _ hm, he⟩

lemma processOne_events_cases {eng : Engine} {env : Env} {cfg : Config}
    {idx : Nat} {f : String} {e : Event}
    (h : e ∈ (processOne eng env cfg idx f).events) :
    e = .imageRead f ∨ (∃ c, e = .engineError c) ∨
    (∃ p m, e = .csvWritten p ((eng.relabel m).1)) ∨
    (∃ p m, e = .visWritten p (eng.contours (env.decode f) ((eng.relabel m).1))) := by
  rcases hc : eng.hhts (hhtsArgs cfg (env.decode f)) with ec | r
  · rw [processOne_eq_error hc] at h
    simp at h
    rcases h with h | h
    · exact Or.inl h
    · exact Or.inr (Or.inl ⟨ec, h⟩)
  · obtain ⟨labels, counts⟩ := r
    rw [processOne_eq_ok hc] at h
    simp only [List.mem_cons] at h
    rcases h with h | h
    · exact Or.inl h
    · rcases mem_outputEvents h with ⟨p, m, hm, he⟩ | ⟨p, m, hm, he⟩
      · rcases List.mem_map.1 hm with ⟨m0, _, rfl⟩
        exact Or.inr (Or.inr (Or.inl ⟨p, m0, he⟩))
      · rcases List.mem_map.1 hm with ⟨m0, _, rfl⟩
        exact Or.inr (Or.inr (Or.inr ⟨p, m0, he⟩))

lemma runLoop_events_cases {eng : Engine} {env : Env} {cfg : Config} :
    ∀ {files : List String} {idx : Nat} {e : Event},
      e ∈ (runLoop eng env cfg files idx).events →
      ∃ i f, f ∈ files ∧ e ∈ (processOne eng env cfg i f).events := by
  intro files
  induction files with
  | nil => intro idx e h; simp [runLoop] at h
  | cons f rest ih =>
      intro idx e h
      simp only [runLoop] at h
      cases hab : (processOne eng env cfg idx f).aborted with
      | false =>
          simp [hab] at h
          rcases h with h1 | h2
          · exact ⟨idx, f, List.mem_cons_self _ _, h1⟩
          · obtain ⟨i, f2, hf, he⟩ := ih h2
            exact ⟨i, f2, List.mem_cons_of_mem _ hf, he⟩
      | true =>
          simp [hab] at h
          exact ⟨idx, f, List.mem_cons_self _ _, h⟩

lemma runLoop_no_dir {eng : Engine} {env : Env} {cfg : Config}
    {files : List String} {idx : Nat} {p : String} :
    Event.dirCreated p ∉ (runLoop eng env cfg files idx).events := by
  intro h
  obtain ⟨i, f, _, hm⟩ := runLoop_events_cases h
  rcases processOne_events_cases hm with h1 | ⟨c, h1⟩ | ⟨q, m, h1⟩ | ⟨q, m, h1⟩ <;>
    simp at h1

lemma runLoop_no_runtime {eng : Engine} {env : Env} {cfg : Config}
    {files : List String} {idx : Nat} {a b : ℚ} :
    Event.runtimeAppended a b ∉ (runLoop eng env cfg files idx).events := by
  intro h
  obtain ⟨i, f, _, hm⟩ := runLoop_events_cases h
  rcases processOne_events_cases hm with h1 | ⟨c, h1⟩ | ⟨q, m, h1⟩ | ⟨q, m, h1⟩ <;>
    simp at h1

lemma runLoop_csv {eng : Engine} {env : Env} {cfg : Config}
    {files : List String} {idx : Nat} {p : String} {g : LabelMap}
    (h : Event.csvWritten p g ∈ (runLoop eng env cfg files idx).events) :
    ∃ m, g = (eng.relabel m).1 := by
  obtain ⟨i, f, _, hm⟩ := runLoop_events_cases h
  rcases processOne_events_cases hm with h1 | ⟨c, h1⟩ | ⟨q, m, h1⟩ | ⟨q, m, h1⟩
  · simp at h1
  · simp at h1
  · simp at h1
    exact ⟨m, h1.2⟩
  · simp at h1

lemma runLoop_vis {eng : Engine} {env : Env} {cfg : Config}
    {files : List String} {idx : Nat} {p : String} {im : Image}
    (h : Event.visWritten p im ∈ (runLoop eng env cfg files idx).events) :
    ∃ img m, im = eng.contours img ((eng.relabel m).1) := by
  obtain ⟨i, f, _, hm⟩ := runLoop_events_cases h
  rcases processOne_events_cases hm with h1 | ⟨c, h1⟩ | ⟨q, m, h1⟩ | ⟨q, m, h1⟩
  · simp at h1
  · simp at h1
  · simp at h1
  · simp at h1
    exact ⟨env.decode f, m, h1.2⟩

/-! ## Pre-loop directory creation -/

lemma ensureDir_shape {st : List String × List Event} {q : String}
    (h : ∀ e ∈ st.2, ∃ p, e = Event.dirCreated p) :
    ∀ e ∈ (ensureDir st q).2, ∃ p, e = Event.dirCreated p := by
  intro e he
  unfold ensureDir at he
  split at he
  · exact h e he
  · rcases List.mem_append.1 he with h1 | h2
    · exact h e h1
    · simp at h2
      exact ⟨q, h2⟩

lemma foldl_ensure_shape (d : String) :
    ∀ (l : List Int) (st : List String × List Event),
      (∀ e ∈ st.2, ∃ p, e = Event.dirCreated p) →
      ∀ e ∈ (l.foldl (fun st sp => ensureDir st (joinPath d (toString sp))) st).2,
        ∃ p, e = Event.dirCreated p := by
  intro l
  induction l with
  | nil => intro st h; simpa using h
  | cons a l ih => intro st h; exact ih _ (ensureDir_shape h)

lemma preloopInit_shape {env : Env} {cfg : Config} :
    ∀ e ∈ (preloopInit env cfg).2, ∃ p, e = Event.dirCreated p := by
  have hbase : ∀ e ∈ ((env.existingDirs, ([] : List Event))).2,
      ∃ p, e = Event.dirCreated p := by intro e he; simp at he
  by_cases h1 : cfg.outputDir = ""
  · by_cases h2 : cfg.visDir = ""
    · have heq : preloopInit env cfg = (env.existingDirs, []) := by
        simp [preloopInit, h1, h2]
      rw [heq]; exact hbase
    · have heq : preloopInit env cfg = ensureDir (env.existingDirs, []) cfg.visDir := by
        simp [preloopInit, h1, h2]
      rw [heq]; exact ensureDir_shape hbase
  · by_cases h2 : cfg.visDir = ""
    · have heq : preloopInit env cfg = ensureDir (env.existingDirs, []) cfg.outputDir := by
        simp [preloopInit, h1, h2]
      rw [heq]; exact ensureDir_shape hbase
    · have heq : preloopInit env cfg =
          ensureDir (ensureDir (env.existingDirs, []) cfg.outputDir) cfg.visDir := by
        simp [preloopInit, h1, h2]
      rw [heq]; exact ensureDir_shape (ensureDir_shape hbase)

lemma preloop_shape {env : Env} {cfg : Config} :
    ∀ e ∈ (preloop env cfg).2, ∃ p, e = Event.dirCreated p := by
  unfold preloop
  exact foldl_ensure_shape _ _ _ preloopInit_shape

lemma ensureDir_mem_self (st : List String × List Event) (p : String) :
    p ∈ (ensureDir st p).1 := by
  unfold ensureDir
  split
  · assumption
  · exact List.mem_cons_self _ _

lemma ensureDir_mem_mono {st : List String × List Event} {q : String} (p : String)
    (h : q ∈ st.1) : q ∈ (ensureDir st p).1 := by
  unfold ensureDir
  split
  · exact h
  · exact List.mem_cons_of_mem _ h

lemma foldl_ensure_mono (d : String) :
    ∀ (l : List Int) (st : List String × List Event) (q : String), q ∈ st.1 →
      q ∈ (l.foldl (fun st sp => ensureDir st (joinPath d (toString sp))) st).1 := by
  intro l
  induction l with
  | nil => intro st q h; simpa using h
  | cons a l ih => intro st q h; exact ih _ _ (ensureDir_mem_mono _ h)

lemma foldl_ensure_mem (d : String) :
    ∀ (l : List Int) (st : List String × List Event) (sp : Int), sp ∈ l →
      joinPath d (toString sp) ∈
        (l.foldl (fun st sp => ensureDir st (joinPath d (toString sp))) st).1 := by
  intro l
  induction l with
  | nil => intro st sp h; simp at h
  | cons a l ih =>
      intro st sp h
      rw [List.foldl_cons]
      rcases List.mem_cons.1 h with rfl | h2
      · exact foldl_ensure_mono _ _ _ _ (ensureDir_mem_self _ _)
      · exact ih _ _ h2

/-! ## Output extraction helpers -/

lemma runtimeLines_append (a b : List Event) :
    runtimeLines (a ++ b) = runtimeLines a ++ runtimeLines b :=
  List.filterMap_append _ _ _

lemma csvOf_append (a b : List Event) :
    csvOf (a ++ b) = csvOf a ++ csvOf b :=
  List.filterMap_append _ _ _

lemma visOf_append (a b : List Event) :
    visOf (a ++ b) = visOf a ++ visOf b :=
  List.filterMap_append _ _ _

lemma runtimeLines_eq_nil {tr : List Event}
    (h : ∀ a b, Event.runtimeAppended a b ∉ tr) : runtimeLines tr = [] := by
  unfold runtimeLines
  rw [List.filterMap_eq_nil_iff]
  intro e he
  cases e <;> first | rfl | exact absurd he (h _ _)

lemma csvOf_eq_nil {tr : List Event}
    (h : ∀ p g, Event.csvWritten p g ∉ tr) : csvOf tr = [] := by
  unfold csvOf
  rw [List.filterMap_eq_nil_iff]
  intro e he
  cases e <;> first | rfl | exact absurd he (h _ _)

lemma visOf_eq_nil {tr : List Event}
    (h : ∀ p i, Event.visWritten p i ∉ tr) : visOf tr = [] := by
  unfold visOf
  rw [List.filterMap_eq_nil_iff]
  intro e he
  cases e <;> first | rfl | exact absurd he (h _ _)

lemma runtimeLines_preloop {env : Env} {cfg : Config} :
    runtimeLines (preloop env cfg).2 = [] := by
  apply runtimeLines_eq_nil
  intro a b hmem
  obtain ⟨p, hp⟩ := preloop_shape _ hmem
  simp at hp

lemma csvOf_preloop {env : Env} {cfg : Config} :
    csvOf (preloop env cfg).2 = [] := by
  apply csvOf_eq_nil
  intro p g hmem
  obtain ⟨q, hq⟩ := preloop_shape _ hmem
  simp at hq

lemma visOf_preloop {env : Env} {cfg : Config} :
    visOf (preloop env cfg).2 = [] := by
  apply visOf_eq_nil
  intro p i hmem
  obtain ⟨q, hq⟩ := preloop_shape _ hmem
  simp at hq

lemma runLoop_cons_ok {eng : Engine} {env : Env} {cfg : Config}
    {f : String} {rest : List String} {idx : Nat}
    (hab : (processOne eng env cfg idx f).aborted = false) :
    runLoop eng env cfg (f :: rest) idx =
      ⟨(processOne eng env cfg idx f).events ++
         (runLoop eng env cfg rest (idx + 1)).events,
       (processOne eng env cfg idx f).cpu + (runLoop eng env cfg rest (idx + 1)).cpu,
       (processOne eng env cfg idx f).wall + (runLoop eng env cfg rest (idx + 1)).wall,
       1 + (runLoop eng env cfg rest (idx + 1)).count,
       (runLoop eng env cfg rest (idx + 1)).aborted⟩ := by
  simp [runLoop, hab]

lemma runLoop_cons_abort {eng : Engine} {env : Env} {cfg : Config}
    {f : String} {rest : List String} {idx : Nat}
    (hab : (processOne eng env cfg idx f).aborted = true) :
    runLoop eng env cfg (f :: rest) idx =
      ⟨(processOne eng env cfg idx f).events,
       (processOne eng env cfg idx f).cpu,
       (processOne eng env cfg idx f).wall, 0, true⟩ := by
  simp [runLoop, hab]

/-! ## Configuration validity and the spec-modelled engine -/

lemma configValid_iff {cfg : Config} :
    configValid cfg = true ↔
      (colorChannels cfg ≠ 0 ∧ 0 < cfg.bins ∧ cfg.superpixels ≠ []) := by
  simp [configValid, and_assoc]

lemma hhtsSpec_ok_of_valid {cfg : Config} (hv : configValid cfg = true)
    (seg : HHTSArgs → Int → LabelMap) (img : Image) :
    hhtsSpec seg (hhtsArgs cfg img) =
      (if img = [] then .ok ([], [])
       else .ok (cfg.superpixels.map (seg (hhtsArgs cfg img)), cfg.superpixels)) := by
  obtain ⟨h1, h2, h3⟩ := configValid_iff.1 hv
  simp only [hhtsSpec, hhtsArgs]
  rw [if_neg h1, if_neg (by omega : ¬ cfg.bins ≤ 0), if_neg h3]

lemma hhtsSpec_err_of_invalid {cfg : Config} (hv : configValid cfg = false)
    (seg : HHTSArgs → Int → LabelMap) (img : Image) :
    ∃ e, hhtsSpec seg (hhtsArgs cfg img) = .error e := by
  by_cases h1 : colorChannels cfg = 0
  · exact ⟨.noChannelSelected, by simp [hhtsSpec, hhtsArgs, h1]⟩
  by_cases h2 : cfg.bins ≤ 0
  · exact ⟨.nonpositiveBins, by simp [hhtsSpec, hhtsArgs, h1, h2]⟩
  by_cases h3 : cfg.superpixels = []
  · exact ⟨.emptyTargetList, by simp [hhtsSpec, hhtsArgs, h1, h2, h3]⟩
  · exfalso
    have hvt : configValid cfg = true := configValid_iff.2 ⟨h1, by omega, h3⟩
    rw [hvt] at hv
    cases hv

lemma processOne_valid (seg : HHTSArgs → Int → LabelMap)
    (rel : LabelMap → LabelMap × Nat) (con : Image → LabelMap → Image)
    (env : Env) {cfg : Config} (hv : configValid cfg = true) (idx : Nat) (f : String) :
    (processOne (engOf seg rel con) env cfg idx f).aborted = false ∧
    (processOne (engOf seg rel con) env cfg idx f).cpu = env.cpuTime idx ∧
    (processOne (engOf seg rel con) env cfg idx f).wall = env.wallTime idx := by
  have h := hhtsSpec_ok_of_valid hv seg (env.decode f)
  split at h
  · rw [processOne_eq_ok h]
    exact ⟨rfl, rfl, rfl⟩
  · rw [processOne_eq_ok h]
    exact ⟨rfl, rfl, rfl⟩

lemma processOne_emptyImage (seg : HHTSArgs → Int → LabelMap)
    (rel : LabelMap → LabelMap × Nat) (con : Image → LabelMap → Image)
    (env : Env) {cfg : Config} (hv : configValid cfg = true) (idx : Nat) {f : String}
    (hf : env.decode f = []) :
    (processOne (engOf seg rel con) env cfg idx f).events = [.imageRead f] := by
  have h := hhtsSpec_ok_of_valid hv seg (env.decode f)
  rw [if_pos hf] at h
  rw [processOne_eq_ok h]
  simp [outputEvents]

lemma runLoop_valid (seg : HHTSArgs → Int → LabelMap)
    (rel : LabelMap → LabelMap × Nat) (con : Image → LabelMap → Image)
    (env : Env) {cfg : Config} (hv : configValid cfg = true) :
    ∀ (files : List String) (idx : Nat),
      (runLoop (engOf seg rel con) env cfg files idx).aborted = false ∧
      (runLoop (engOf seg rel con) env cfg files idx).count = files.length ∧
      (runLoop (engOf seg rel con) env cfg files idx).cpu = cpuSum env idx files.length ∧
      (runLoop (engOf seg rel con) env cfg files idx).wall = wallSum env idx files.length := by
  intro files
  induction files with
  | nil => intro idx; simp [runLoop, cpuSum, wallSum]
  | cons f rest ih =>
      intro idx
      obtain ⟨hab, hcpu, hwall⟩ := processOne_valid seg rel con env hv idx f
      obtain ⟨rab, rcount, rcpu, rwall⟩ := ih (idx + 1)
      rw [runLoop_cons_ok hab]
      refine ⟨rab, ?_, ?_, ?_⟩
      · simp [rcount]
        omega
      · simp [hcpu, rcpu, cpuSum]
      · simp [hwall, rwall, wallSum]

lemma imageRead_mem_runLoop_valid (seg : HHTSArgs → Int → LabelMap)
    (rel : LabelMap → LabelMap × Nat) (con : Image → LabelMap → Image)
    (env : Env) {cfg : Config} (hv : configValid cfg = true) :
    ∀ {files : List String} {idx : Nat} {f : String}, f ∈ files →
      Event.imageRead f ∈ (runLoop (engOf seg rel con) env cfg files idx).events := by
  intro files
  induction files with
  | nil => intro idx f h; simp at h
  | cons f0 rest ih =>
      intro idx f h
      have hab := (processOne_valid seg rel con env hv idx f0).1
      rw [runLoop_cons_ok hab]
      rcases List.mem_cons.1 h with rfl | h2
      · apply List.mem_append_left
        obtain ⟨tl, htl⟩ :=
          @processOne_events_head (engOf seg rel con) env cfg idx f
        rw [htl]
        exact List.mem_cons_self _ _
      · exact List.mem_append_right _ (ih h2)

/-! ## Whole-run decomposition -/

lemma runMain_trace_eq {eng : Engine} {env : Env} {cfg : Config} :
    (runMain eng env cfg).trace =
      (preloop env cfg).2 ++
      ((runLoop eng env cfg env.files 0).events ++
        (if (runLoop eng env cfg env.files 0).aborted then [] else
          if cfg.outputDir = "" then []
          else [Event.runtimeAppended
            ((runLoop eng env cfg env.files 0).cpu /
              ((runLoop eng env cfg env.files 0).count : ℚ))
            ((runLoop eng env cfg env.files 0).wall /
              ((runLoop eng env cfg env.files 0).count : ℚ))])) := by
  unfold runMain
  cases hab : (runLoop eng env cfg env.files 0).aborted <;> simp [hab]

lemma runMain_countOut {eng : Engine} {env : Env} {cfg : Config} :
    (runMain eng env cfg).countOut = (runLoop eng env cfg env.files 0).count := by
  unfold runMain
  cases hab : (runLoop eng env cfg env.files 0).aborted <;> simp [hab]

lemma runMain_aborted {eng : Engine} {env : Env} {cfg : Config} :
    (runMain eng env cfg).aborted = (runLoop eng env cfg env.files 0).aborted := by
  unfold runMain
  cases hab : (runLoop eng env cfg env.files 0).aborted <;> simp [hab]

/-! ## CSV output characterisation -/

lemma csvOf_outputEventsOne {cfg : Config} {f : String} {img : Image}
    {eng : Engine} {i : Nat} {m : LabelMap} (hout : cfg.outputDir ≠ "") :
    csvOf (outputEventsOne cfg f img eng i m) =
      [(joinPath (joinPath cfg.outputDir (toString (cfg.superpixels.getD i 0)))
          (cfg.pfx ++ stem f ++ ".csv"), m)] := by
  unfold outputEventsOne
  rw [if_neg hout]
  rw [csvOf_append]
  split <;> simp [csvOf]

lemma csvOf_outputEvents_get {cfg : Config} {f : String} {img : Image}
    {eng : Engine} (hout : cfg.outputDir ≠ "") :
    ∀ (ms : List LabelMap) (i j : Nat),
      (csvOf (outputEvents cfg f img eng i ms))[j]? =
        (ms[j]?).map (fun m =>
          (joinPath (joinPath cfg.outputDir (toString (cfg.superpixels.getD (i + j) 0)))
            (cfg.pfx ++ stem f ++ ".csv"), m)) := by
  intro ms
  induction ms with
  | nil => intro i j; simp [outputEvents, csvOf]
  | cons m rest ih =>
      intro i j
      simp only [outputEvents]
      rw [csvOf_append, csvOf_outputEventsOne hout]
      cases j with
      | zero => simp
      | succ j =>
          have hidx : i + 1 + j = i + (j + 1) := by omega
          simp only [List.singleton_append, List.getElem?_cons_succ,
            List.getElem?_cons_succ]
          rw [ih (i + 1) j, hidx]

lemma csvOf_outputEvents_length {cfg : Config} {f : String} {img : Image}
    {eng : Engine} (hout : cfg.outputDir ≠ "") :
    ∀ (ms : List LabelMap) (i : Nat),
      (csvOf (outputEvents cfg f img eng i ms)).length = ms.length := by
  intro ms
  induction ms with
  | nil => intro i; simp [outputEvents, csvOf]
  | cons m rest ih =>
      intro i
      simp only [outputEvents]
      rw [csvOf_append, csvOf_outputEventsOne hout]
      simp [ih (i + 1)]

lemma csvOf_outputEvents_nil {cfg : Config} {f : String} {img : Image}
    {eng : Engine} (hout : cfg.outputDir = "") :
    ∀ (i : Nat) (ms : List LabelMap),
      csvOf (outputEvents cfg f img eng i ms) = [] := by
  intro i ms
  induction ms generalizing i with
  | nil => simp [outputEvents, csvOf]
  | cons m rest ih =>
      simp only [outputEvents]
      rw [csvOf_append]
      rw [ih (i + 1)]
      unfold outputEventsOne
      rw [if_pos hout]
      simp only [List.nil_append]
      split <;> simp [csvOf]

lemma mem_csvOf {tr : List Event} {p : String} {g : LabelMap}
    (h : Event.csvWritten p g ∈ tr) : (p, g) ∈ csvOf tr := by
  induction tr with
  | nil => simp at h
  | cons a l ih =>
      rcases List.mem_cons.1 h with rfl | h2
      · simp [csvOf]
      · have hmem := ih h2
        cases a <;> simp [csvOf] at hmem ⊢ <;>
          first | exact hmem | exact Or.inr hmem

lemma runLoop_csv_nil {eng : Engine} {env : Env} {cfg : Config}
    (hout : cfg.outputDir = "") {files : List String} {idx : Nat}
    {p : String} {g : LabelMap} :
    Event.csvWritten p g ∉ (runLoop eng env cfg files idx).events := by
  intro h
  obtain ⟨i, f, _, hm⟩ := runLoop_events_cases h
  rcases hc : eng.hhts (hhtsArgs cfg (env.decode f)) with ec | r
  · rw [processOne_eq_error hc] at hm
    simp at hm
  · obtain ⟨labels, counts⟩ := r
    rw [processOne_eq_ok hc] at hm
    simp only [List.mem_cons] at hm
    rcases hm with hm | hm
    · simp at hm
    · have := mem_csvOf hm
      rw [csvOf_outputEvents_nil hout] at this
      simp at this

lemma csvOf_cons_imageRead (f : String) (l : List Event) :
    csvOf (.imageRead f :: l) = csvOf l := by
  simp [csvOf]

lemma csvOf_runMain {eng : Engine} {env : Env} {cfg : Config} :
    csvOf (runMain eng env cfg).trace =
      csvOf (runLoop eng env cfg env.files 0).events := by
  rw [runMain_trace_eq, csvOf_append, csvOf_preloop, csvOf_append]
  have htail : csvOf
      (if (runLoop eng env cfg env.files 0).aborted then [] else
        if cfg.outputDir = "" then []
        else [Event.runtimeAppended
          ((runLoop eng env cfg env.files 0).cpu /
            ((runLoop eng env cfg env.files 0).count : ℚ))
          ((runLoop eng env cfg env.files 0).wall /
            ((runLoop eng env cfg env.files 0).count : ℚ))]) = [] := by
    split
    · rfl
    · split
      · rfl
      · simp [csvOf]
  rw [htail]
  simp

lemma visOf_runMain {eng : Engine} {env : Env} {cfg : Config} :
    visOf (runMain eng env cfg).trace =
      visOf (runLoop eng env cfg env.files 0).events := by
  rw [runMain_trace_eq, visOf_append, visOf_preloop, visOf_append]
  have htail : visOf
      (if (runLoop eng env cfg env.files 0).aborted then [] else
        if cfg.outputDir = "" then []
        else [Event.runtimeAppended
          ((runLoop eng env cfg env.files 0).cpu /
            ((runLoop eng env cfg env.files 0).count : ℚ))
          ((runLoop eng env cfg env.files 0).wall /
            ((runLoop eng env cfg env.files 0).count : ℚ))]) = [] := by
    split
    · rfl
    · split
      · rfl
      · simp [visOf]
  rw [htail]
  simp

/-! ## Congruence lemmas -/

lemma outputEvents_contours_congr {cfg : Config} {f : String} {img : Image}
    {e1 e2 : Engine} (hc : e1.contours = e2.contours) :
    ∀ (i : Nat) (ms : List LabelMap),
      outputEvents cfg f img e1 i ms = outputEvents cfg f img e2 i ms := by
  intro i ms
  induction ms generalizing i with
  | nil => simp [outputEvents]
  | cons m rest ih =>
      simp only [outputEvents]
      rw [ih (i + 1)]
      unfold outputEventsOne
      rw [hc]

lemma processOne_congr {env : Env} {cfg : Config} {idx : Nat} {f : String}
    {e1 e2 : Engine} (hh : e1.hhts = e2.hhts) (hc : e1.contours = e2.contours)
    (hr : ∀ m, (e1.relabel m).1 = (e2.relabel m).1) :
    processOne e1 env cfg idx f = processOne e2 env cfg idx f := by
  rcases h : e1.hhts (hhtsArgs cfg (env.decode f)) with ec | r
  · rw [processOne_eq_error h, processOne_eq_error (hh ▸ h)]
  · obtain ⟨labels, counts⟩ := r
    rw [processOne_eq_ok h, processOne_eq_ok (hh ▸ h)]
    have hmap : labels.map (fun m => (e1.relabel m).1) =
        labels.map (fun m => (e2.relabel m).1) :=
      List.map_congr_left (fun m _ => hr m)
    rw [hmap, outputEvents_contours_congr hc]

lemma runLoop_congr (env : Env) (cfg : Config) {e1 e2 : Engine}
    (hh : e1.hhts = e2.hhts) (hc : e1.contours = e2.contours)
    (hr : ∀ m, (e1.relabel m).1 = (e2.relabel m).1) :
    ∀ (files : List String) (idx : Nat),
      runLoop e1 env cfg files idx = runLoop e2 env cfg files idx := by
  intro files
  induction files with
  | nil => intro idx; simp [runLoop]
  | cons f rest ih =>
      intro idx
      simp only [runLoop]
      rw [processOne_congr hh hc hr, ih (idx + 1)]

lemma processOne_env_congr (eng : Engine) (cfg : Config) (idx : Nat) (f : String)
    {env1 env2 : Env} (hd : env1.decode = env2.decode) :
    (processOne eng env1 cfg idx f).events = (processOne eng env2 cfg idx f).events ∧
    (processOne eng env1 cfg idx f).aborted = (processOne eng env2 cfg idx f).aborted := by
  have hdf : env1.decode f = env2.decode f := congrFun hd f
  rcases h : eng.hhts (hhtsArgs cfg (env1.decode f)) with ec | r
  · have h2 : eng.hhts (hhtsArgs cfg (env2.decode f)) = .error ec := by
      rw [← hdf]; exact h
    rw [processOne_eq_error h, processOne_eq_error h2]
    exact ⟨rfl, rfl⟩
  · obtain ⟨labels, counts⟩ := r
    have h2 : eng.hhts (hhtsArgs cfg (env2.decode f)) = .ok (labels, counts) := by
      rw [← hdf]; exact h
    rw [processOne_eq_ok h, processOne_eq_ok h2]
    rw [hdf]
    exact ⟨rfl, rfl⟩

lemma runLoop_env_congr (eng : Engine) (cfg : Config) {env1 env2 : Env}
    (hd : env1.decode = env2.decode) :
    ∀ (files : List String) (idx : Nat),
      (runLoop eng env1 cfg files idx).events = (runLoop eng env2 cfg files idx).events ∧
      (runLoop eng env1 cfg files idx).count = (runLoop eng env2 cfg files idx).count ∧
      (runLoop eng env1 cfg files idx).aborted = (runLoop eng env2 cfg files idx).aborted := by
  intro files
  induction files with
  | nil => intro idx; simp [runLoop]
  | cons f rest ih =>
      intro idx
      obtain ⟨hev, hab⟩ := processOne_env_congr eng cfg idx f hd
      obtain ⟨rev, rcount, rab⟩ := ih (idx + 1)
      cases hb : (processOne eng env2 cfg idx f).aborted with
      | true =>
          have hb1 : (processOne eng env1 cfg idx f).aborted = true := by
            rw [hab, hb]
          rw [runLoop_cons_abort hb1, runLoop_cons_abort hb]
          exact ⟨hev, rfl, rfl⟩
      | false =>
          have hb1 : (processOne eng env1 cfg idx f).aborted = false := by
            rw [hab, hb]
          rw [runLoop_cons_ok hb1, runLoop_cons_ok hb]
          refine ⟨?_, ?_, ?_⟩ <;> simp [hev, rev, rcount, rab]

/-! ## Event ordering -/

lemma before_of_append {l1 l2 : List Event}
    (h1 : ∀ p, Event.dirCreated p ∉ l2)
    (h2 : ∀ q, Event.imageRead q ∉ l1) :
    ∀ (i j : Nat) (p q : String),
      (l1 ++ l2)[i]? = some (.dirCreated p) →
      (l1 ++ l2)[j]? = some (.imageRead q) → i < j := by
  intro i j p q hi hj
  have hi1 : i < l1.length := by
    by_contra hn
    push_neg at hn
    rw [List.getElem?_append_right hn] at hi
    exact h1 p (List.getElem?_mem hi)
  have hj1 : l1.length ≤ j := by
    by_contra hn
    push_neg at hn
    rw [List.getElem?_append_left hn] at hj
    exact h2 q (List.getElem?_mem hj)
  omega

/-! ## Claims -/

/-- C1: with a valid configuration, the batch loop never aborts: every
file of the batch is read (one `imageRead` event each, `count` reaches
the batch size), and an image that fails to decode produces no output
events at all in its iteration — it is skipped and processing continues
with the remaining images. -/
theorem c1_decode_failure_skipped (seg : HHTSArgs → Int → LabelMap)
    (rel : LabelMap → LabelMap × Nat) (con : Image → LabelMap → Image)
    (env : Env) (cfg : Config) (hv : configValid cfg = true) :
    (runMain (engOf seg rel con) env cfg).aborted = false ∧
    (runMain (engOf seg rel con) env cfg).countOut = env.files.length ∧
    (∀ f ∈ env.files,
      Event.imageRead f ∈ (runMain (engOf seg rel con) env cfg).trace) ∧
    (∀ idx f, env.decode f = [] →
      (processOne (engOf seg rel con) env cfg idx f).events = [.imageRead f]) := by
  obtain ⟨hab, hcount, _, _⟩ := runLoop_valid seg rel con env hv env.files 0
  refine ⟨?_, ?_, ?_, ?_⟩
  · rw [runMain_aborted, hab]
  · rw [runMain_countOut, hcount]
  · intro f hf
    rw [runMain_trace_eq]
    exact List.mem_append_right _
      (List.mem_append_left _ (imageRead_mem_runLoop_valid seg rel con env hv hf))
  · intro idx f hf
    exact processOne_emptyImage seg rel con env hv idx hf

/-- C1 witness: a concrete two-file batch whose second file fails to
decode; the run does not abort, both files are read, and the failing
file's iteration emits no output events. -/
theorem c1_witness :
    configValid cfg0 = true ∧
    ((runMain (engOf seg0 rel0 con0) envGood cfg0).aborted = false ∧
     (runMain (engOf seg0 rel0 con0) envGood cfg0).countOut = envGood.files.length ∧
     (∀ f ∈ envGood.files,
       Event.imageRead f ∈ (runMain (engOf seg0 rel0 con0) envGood cfg0).trace) ∧
     (∀ idx f, envGood.decode f = [] →
       (processOne (engOf seg0 rel0 con0) envGood cfg0 idx f).events =
         [.imageRead f])) :=
  ⟨by decide, c1_decode_failure_skipped seg0 rel0 con0 envGood cfg0 (by decide)⟩

/-- C2 counterexample: with an empty target-count list (an invalid
configuration) and a one-image batch, the driver reads the first image
(trace index 1, right after the directory creation) and only then does
the engine report the configuration error (trace index 2); the error is
not reported before any image is processed, contradicting the claim. -/
theorem c2_counterexample :
    (runMain eng0 env0 cfgBad).aborted = true ∧
    (runMain eng0 env0 cfgBad).trace[1]? = some (.imageRead "imgs/a.png") ∧
    (runMain eng0 env0 cfgBad).trace[2]? =
      some (.engineError .emptyTargetList) := by
  decide

/-- C2 (amended): the driver performs no configuration validation of its
own; an invalid configuration (no channel, non-positive bins, or empty
target list) is detected only by the engine, which is first invoked
after the first image of the batch has already been read — the resulting
trace is the pre-loop directory events, then the read of the first
image, then the engine error aborting the run. -/
theorem c2_no_validation_before_first_image (seg : HHTSArgs → Int → LabelMap)
    (rel : LabelMap → LabelMap × Nat) (con : Image → LabelMap → Image)
    (env : Env) (cfg : Config) (f : String) (rest : List String)
    (hv : configValid cfg = false) (hf : env.files = f :: rest) :
    (runMain (engOf seg rel con) env cfg).aborted = true ∧
    ∃ e, (runMain (engOf seg rel con) env cfg).trace =
      (preloop env cfg).2 ++ [.imageRead f, .engineError e] := by
  obtain ⟨e, he⟩ := hhtsSpec_err_of_invalid hv seg (env.decode f)
  have hpe : processOne (engOf seg rel con) env cfg 0 f =
      ⟨[.imageRead f, .engineError e], 0, 0, true⟩ :=
    processOne_eq_error he
  have hab : (processOne (engOf seg rel con) env cfg 0 f).aborted = true := by
    rw [hpe]
  have hloop : runLoop (engOf seg rel con) env cfg env.files 0 =
      ⟨[.imageRead f, .engineError e], 0, 0, 0, true⟩ := by
    rw [hf, runLoop_cons_abort hab, hpe]
  constructor
  · rw [runMain_aborted, hloop]
  · refine ⟨e, ?_⟩
    rw [runMain_trace_eq, hloop]
    simp

/-- C2 amended witness: at the concrete invalid configuration `cfgBad`
(empty target list) and the one-file environment `env0`, the run aborts
and its trace is the directory event followed by the image read and the
engine error. -/
theorem c2_witness :
    configValid cfgBad = false ∧ env0.files = "imgs/a.png" :: [] ∧
    ((runMain (engOf seg0 rel0 con0) env0 cfgBad).aborted = true ∧
     ∃ e, (runMain (engOf seg0 rel0 con0) env0 cfgBad).trace =
       (preloop env0 cfgBad).2 ++ [.imageRead "imgs/a.png", .engineError e]) :=
  ⟨by decide, rfl,
   c2_no_validation_before_first_image seg0 rel0 con0 env0 cfgBad
     "imgs/a.png" [] (by decide) rfl⟩

/-- C3: in every run, whatever the engine, every CSV grid that is
written is the result of connectivity relabeling (`eng.relabel`) applied
to a label map returned by the engine, and every contour image is drawn
from a relabeled map — the enforcement step runs before any CSV or
contour output is produced, for every configuration (the driver has no
setting that disables it). -/
theorem c3_relabel_before_output (eng : Engine) (env : Env) (cfg : Config) :
    (∀ p g, Event.csvWritten p g ∈ (runMain eng env cfg).trace →
      ∃ m, g = (eng.relabel m).1) ∧
    (∀ p im, Event.visWritten p im ∈ (runMain eng env cfg).trace →
      ∃ img m, im = eng.contours img ((eng.relabel m).1)) := by
  constructor
  · intro p g hmem
    rw [runMain_trace_eq] at hmem
    rcases List.mem_append.1 hmem with h1 | h2
    · obtain ⟨q, hq⟩ := preloop_shape _ h1
      simp at hq
    · rcases List.mem_append.1 h2 with h3 | h4
      · exact runLoop_csv h3
      · split at h4
        · simp at h4
        · split at h4 <;> simp at h4
  · intro p im hmem
    rw [runMain_trace_eq] at hmem
    rcases List.mem_append.1 hmem with h1 | h2
    · obtain ⟨q, hq⟩ := preloop_shape _ h1
      simp at hq
    · rcases List.mem_append.1 h2 with h3 | h4
      · exact runLoop_vis h3
      · split at h4
        · simp at h4
        · split at h4 <;> simp at h4

/-- C3 witness: in the concrete run, the CSV grid written to
`out/2/a.csv` is a relabeled map. -/
theorem c3_witness :
    Event.csvWritten "out/2/a.csv" [[2]] ∈ (runMain eng0 envGood cfg0).trace ∧
    ∃ m, ([[2]] : LabelMap) = (eng0.relabel m).1 :=
  ⟨by decide,
   (c3_relabel_before_output eng0 envGood cfg0).1 "out/2/a.csv" [[2]] (by decide)⟩

/-- C4: for a decodable image under a valid configuration with a
non-empty output directory, the iteration writes exactly one CSV file
per requested target count, in request order: the `j`-th CSV written
goes under the subdirectory named after the `j`-th requested count and
holds the relabeled label map the engine produced for that count. -/
theorem c4_one_csv_per_target_in_order (seg : HHTSArgs → Int → LabelMap)
    (rel : LabelMap → LabelMap × Nat) (con : Image → LabelMap → Image)
    (env : Env) (cfg : Config) (idx : Nat) (f : String)
    (hv : configValid cfg = true) (himg : env.decode f ≠ [])
    (hout : cfg.outputDir ≠ "") :
    (csvOf (processOne (engOf seg rel con) env cfg idx f).events).length =
      cfg.superpixels.length ∧
    ∀ (j : Nat), (csvOf (processOne (engOf seg rel con) env cfg idx f).events)[j]? =
      (cfg.superpixels[j]?).map (fun sp =>
        (joinPath (joinPath cfg.outputDir (toString sp))
          (cfg.pfx ++ stem f ++ ".csv"),
         (rel (seg (hhtsArgs cfg (env.decode f)) sp)).1)) := by
  have h := hhtsSpec_ok_of_valid hv seg (env.decode f)
  rw [if_neg himg] at h
  rw [processOne_eq_ok h]
  have hrel : (engOf seg rel con).relabel = rel := rfl
  constructor
  · show (csvOf (Event.imageRead f :: _)).length = _
    rw [csvOf_cons_imageRead, csvOf_outputEvents_length hout]
    simp
  · intro j
    show (csvOf (Event.imageRead f :: _))[j]? = _
    rw [csvOf_cons_imageRead, csvOf_outputEvents_get hout, hrel, List.map_map,
      List.getElem?_map]
    cases hsp : cfg.superpixels[j]? with
    | none => simp
    | some sp =>
        simp [hsp, List.getD_eq_getElem?_getD, Function.comp]

/-- C4 witness: the concrete run over image `d/a.png` with targets
`[2, 5]` writes its two CSV grids under subdirectories `2` and `5` in
request order. -/
theorem c4_witness :
    configValid cfg0 = true ∧ envGood.decode "d/a.png" ≠ [] ∧
    cfg0.outputDir ≠ "" ∧
    ((csvOf (processOne (engOf seg0 rel0 con0) envGood cfg0 0 "d/a.png").events).length =
       cfg0.superpixels.length ∧
     ∀ (j : Nat), (csvOf (processOne (engOf seg0 rel0 con0) envGood cfg0 0 "d/a.png").events)[j]? =
       (cfg0.superpixels[j]?).map (fun sp =>
         (joinPath (joinPath cfg0.outputDir (toString sp))
           (cfg0.pfx ++ stem "d/a.png" ++ ".csv"),
          (rel0 (seg0 (hhtsArgs cfg0 (envGood.decode "d/a.png")) sp)).1))) :=
  ⟨by decide, by decide, by decide,
   c4_one_csv_per_target_in_order seg0 rel0 con0 envGood cfg0 0 "d/a.png"
     (by decide) (by decide) (by decide)⟩

/-- C5: for a run with a valid configuration and a non-empty output
directory, the runtime log after the run is its prior contents (the
append-mode open never truncates) followed by exactly one new line whose
first value is the batch's accumulated CPU time divided by the image
count and whose second value is the accumulated wall time divided by the
image count. -/
theorem c5_runtime_log_one_line (seg : HHTSArgs → Int → LabelMap)
    (rel : LabelMap → LabelMap × Nat) (con : Image → LabelMap → Image)
    (env : Env) (cfg : Config) (prior : List (ℚ × ℚ))
    (hv : configValid cfg = true) (hout : cfg.outputDir ≠ "") :
    runtimeLogAfter prior (runMain (engOf seg rel con) env cfg) =
      prior ++ [(cpuSum env 0 env.files.length / (env.files.length : ℚ),
                 wallSum env 0 env.files.length / (env.files.length : ℚ))] := by
  obtain ⟨hab, hcount, hcpu, hwall⟩ := runLoop_valid seg rel con env hv env.files 0
  unfold runtimeLogAfter
  rw [runMain_trace_eq, runtimeLines_append, runtimeLines_preloop,
    runtimeLines_append, runtimeLines_eq_nil (fun a b => runLoop_no_runtime)]
  simp [hab, hcount, hcpu, hwall, hout, runtimeLines]

/-- C5 witness: after the concrete two-image run, the runtime log with
one prior line holds that line followed by exactly the averaged timing
line of the run. -/
theorem c5_witness :
    configValid cfg0 = true ∧ cfg0.outputDir ≠ "" ∧
    runtimeLogAfter [(1, 1)] (runMain (engOf seg0 rel0 con0) envGood cfg0) =
      [(1, 1)] ++
        [(cpuSum envGood 0 envGood.files.length / (envGood.files.length : ℚ),
          wallSum envGood 0 envGood.files.length / (envGood.files.length : ℚ))] :=
  ⟨by decide, by decide,
   c5_runtime_log_one_line seg0 rel0 con0 envGood cfg0 [(1, 1)]
     (by decide) (by decide)⟩

/-- C6 counterexample: the option table of the driver contains no
`nomerge` option — neither among the long names nor among the raw option
specs — so no skip-merge switch exists in the per-run configuration, and
none can be passed to the engine. -/
theorem c6_counterexample :
    "nomerge" ∉ cliOptionLongNames ∧ "nomerge" ∉ cliOptionSpecs := by
  decide

/-- C6 (amended): the driver's accepted option surface is exactly the
fourteen options of `add_options()` — no no-merge switch among them —
and the engine-call argument record consists of exactly the image, the
target counts, the split threshold, the bin count, the minimum segment
size, the channel bitmask and the blur flag, leaving no room for a
skip-merge flag; merging can therefore not be disabled from this
program. -/
theorem c6_no_merge_switch :
    cliOptionLongNames =
      ["help", "input", "superpixels", "splitThreshold", "nrgb", "nhsv",
       "nlab", "blur", "bins", "minSize", "csv", "vis", "prefix", "wordy"] ∧
    ∀ a : HHTSArgs, a =
      ⟨a.image, a.superpixels, a.splitThreshold, a.bins, a.minSize,
       a.colorChannels, a.applyBlur⟩ := by
  constructor
  · decide
  · intro a
    rfl

/-- C7: the count returned by the connectivity relabeler is diagnostic
only — two engines whose relabelers agree on the repaired maps but
report arbitrarily different repair counts produce identical runs:
same trace (hence the same CSV files, contour images, and runtime log),
same totals, same exit condition. -/
theorem c7_repair_counts_diagnostic (e1 e2 : Engine) (env : Env) (cfg : Config)
    (hh : e1.hhts = e2.hhts) (hc : e1.contours = e2.contours)
    (hr : ∀ m, (e1.relabel m).1 = (e2.relabel m).1) :
    runMain e1 env cfg = runMain e2 env cfg := by
  have hl := runLoop_congr env cfg hh hc hr env.files 0
  unfold runMain
  rw [hl]

/-- C7 witness: the two fixture relabelers report different counts
(0 and 1) on the map `[[0]]` but the concrete runs coincide. -/
theorem c7_witness :
    ((engOf seg0 rel0 con0).relabel [[0]]).2 ≠
      ((engOf seg0 rel1 con0).relabel [[0]]).2 ∧
    runMain (engOf seg0 rel0 con0) envGood cfg0 =
      runMain (engOf seg0 rel1 con0) envGood cfg0 :=
  ⟨by decide,
   c7_repair_counts_diagnostic (engOf seg0 rel0 con0) (engOf seg0 rel1 con0)
     envGood cfg0 rfl rfl (fun m => rfl)⟩

/-- C8: the pipeline outputs are deterministic in the image inputs and
the configuration — two runs over the same files with the same decoder
(but possibly different observed timings) write bit-identical CSV grids
and contour images, abort identically, and count the same number of
images; only the timing log line may differ. -/
theorem c8_deterministic_outputs (eng : Engine) (cfg : Config) (env1 env2 : Env)
    (hf : env1.files = env2.files) (hd : env1.decode = env2.decode) :
    csvOf (runMain eng env1 cfg).trace = csvOf (runMain eng env2 cfg).trace ∧
    visOf (runMain eng env1 cfg).trace = visOf (runMain eng env2 cfg).trace ∧
    (runMain eng env1 cfg).aborted = (runMain eng env2 cfg).aborted ∧
    (runMain eng env1 cfg).countOut = (runMain eng env2 cfg).countOut := by
  refine ⟨?_, ?_, ?_, ?_⟩
  · rw [csvOf_runMain, csvOf_runMain, hf]
    congr 1
    exact (runLoop_env_congr eng cfg hd env2.files 0).1
  · rw [visOf_runMain, visOf_runMain, hf]
    congr 1
    exact (runLoop_env_congr eng cfg hd env2.files 0).1
  · rw [runMain_aborted, runMain_aborted, hf]
    exact (runLoop_env_congr eng cfg hd env2.files 0).2.2
  · rw [runMain_countOut, runMain_countOut, hf]
    exact (runLoop_env_congr eng cfg hd env2.files 0).2.1

/-- C8 witness: the fixture environments share files and decoder but
differ in their timers; the concrete runs' outputs coincide. -/
theorem c8_witness :
    envGood.files = envGood2.files ∧ envGood.decode = envGood2.decode ∧
    (csvOf (runMain eng0 envGood cfg0).trace =
       csvOf (runMain eng0 envGood2 cfg0).trace ∧
     visOf (runMain eng0 envGood cfg0).trace =
       visOf (runMain eng0 envGood2 cfg0).trace ∧
     (runMain eng0 envGood cfg0).aborted = (runMain eng0 envGood2 cfg0).aborted ∧
     (runMain eng0 envGood cfg0).countOut =
       (runMain eng0 envGood2 cfg0).countOut) :=
  ⟨rfl, rfl, c8_deterministic_outputs eng0 cfg0 envGood envGood2 rfl rfl⟩

/-- C9: when the input directory yields no images and the output
directory is non-empty, the run still appends a runtime line, computed
by dividing the accumulated totals (0) by the image count, which is 0 —
the end-of-run divisions are not guarded by any check that an image was
processed. -/
theorem c9_unguarded_division_by_zero_count (eng : Engine) (env : Env)
    (cfg : Config) (hf : env.files = []) (hout : cfg.outputDir ≠ "") :
    (runMain eng env cfg).countOut = 0 ∧
    runtimeLines (runMain eng env cfg).trace =
      [((0 : ℚ) / ((0 : Nat) : ℚ), (0 : ℚ) / ((0 : Nat) : ℚ))] := by
  have hloop : runLoop eng env cfg env.files 0 = ⟨[], 0, 0, 0, false⟩ := by
    rw [hf, runLoop]
  constructor
  · rw [runMain_countOut, hloop]
  · rw [runMain_trace_eq, hloop, runtimeLines_append, runtimeLines_preloop]
    simp [hout, runtimeLines]

/-- C9 witness: the empty concrete environment with output directory
`out` yields count 0 and still one appended runtime line. -/
theorem c9_witness :
    envEmpty.files = [] ∧ cfg0.outputDir ≠ "" ∧
    ((runMain eng0 envEmpty cfg0).countOut = 0 ∧
     runtimeLines (runMain eng0 envEmpty cfg0).trace =
       [((0 : ℚ) / ((0 : Nat) : ℚ), (0 : ℚ) / ((0 : Nat) : ℚ))]) :=
  ⟨rfl, by decide,
   c9_unguarded_division_by_zero_count eng0 envEmpty cfg0 rfl (by decide)⟩

/-- C10: every requested superpixel count has its subdirectory
(`output_dir / count`) present after the pre-loop phase; every directory
creation event precedes every image read in the trace; and when the CSV
output-directory option is empty the subdirectory path degenerates to
the bare count — a path relative to the working directory — while no CSV
file is written in the whole run. -/
theorem c10_subdirs_created_before_images (eng : Engine) (env : Env)
    (cfg : Config) (sp : Int) (hsp : sp ∈ cfg.superpixels) :
    joinPath cfg.outputDir (toString sp) ∈ (preloop env cfg).1 ∧
    (∀ (i j : Nat) (p q : String),
      (runMain eng env cfg).trace[i]? = some (.dirCreated p) →
      (runMain eng env cfg).trace[j]? = some (.imageRead q) → i < j) ∧
    (cfg.outputDir = "" →
      joinPath cfg.outputDir (toString sp) = toString sp ∧
      csvOf (runMain eng env cfg).trace = []) := by
  refine ⟨?_, ?_, ?_⟩
  · unfold preloop
    exact foldl_ensure_mem _ _ _ _ hsp
  · intro i j p q hi hj
    rw [runMain_trace_eq] at hi hj
    refine before_of_append ?_ ?_ i j p q hi hj
    · intro r hr
      rcases List.mem_append.1 hr with h1 | h2
      · exact runLoop_no_dir h1
      · split at h2
        · simp at h2
        · split at h2 <;> simp at h2
    · intro r hr
      obtain ⟨x, hx⟩ := preloop_shape _ hr
      simp at hx
  · intro h0
    refine ⟨by simp [joinPath, h0], ?_⟩
    rw [csvOf_runMain]
    exact csvOf_eq_nil (fun p g => runLoop_csv_nil h0)

/-- C10 witness: with the empty output-directory option and requested
count 3, the bare relative directory `3` is ensured before the loop,
all creations precede all reads, and no CSV is written. -/
theorem c10_witness :
    (3 : Int) ∈ cfgNoOut.superpixels ∧
    (joinPath cfgNoOut.outputDir (toString (3 : Int)) ∈
       (preloop envGood cfgNoOut).1 ∧
     (∀ (i j : Nat) (p q : String),
       (runMain eng0 envGood cfgNoOut).trace[i]? = some (.dirCreated p) →
       (runMain eng0 envGood cfgNoOut).trace[j]? = some (.imageRead q) →
         i < j) ∧
     (cfgNoOut.outputDir = "" →
       joinPath cfgNoOut.outputDir (toString (3 : Int)) = toString (3 : Int) ∧
       csvOf (runMain eng0 envGood cfgNoOut).trace = [])) :=
  ⟨by decide,
   c10_subdirs_created_before_images eng0 envGood cfgNoOut 3 (by decide)⟩

end HHTSCli
